import Mathlib

/-
  Verification of the LOSH-krawler normalization and part-classification
  engine (krawl/normalizer/oshwa.py and the two project deserializers),
  through a shallow embedding of the Python code in Lean 4.

  Conventions of the embedding:
  * Python values that flow through the raw metadata tree are modelled by
    the inductive type `PyVal` (None, bool, int, str, list, dict, plus an
    injected License payload used by `_get_files`).
  * Python functions that can raise are modelled as `Except PyErr _`;
    each raised exception class is a `PyErr` constructor.
  * Machine-level details irrelevant to the claims (Unicode case mapping
    beyond ASCII, exotic `str()` conversions) are modelled for the ASCII
    inputs the code actually handles.
-/

namespace Krawl

/-! ### ASCII string helpers (kernel-reducible replacements for `str` methods) -/

/-- ASCII upper-casing of a character, as Python `str.upper` acts on ASCII. -/
def chUpper (c : Char) : Char :=
  if 'a' ≤ c ∧ c ≤ 'z' then Char.ofNat (c.toNat - 32) else c

/-- ASCII lower-casing of a character, as Python `str.lower` acts on ASCII. -/
def chLower (c : Char) : Char :=
  if 'A' ≤ c ∧ c ≤ 'Z' then Char.ofNat (c.toNat + 32) else c

/-- Python `s.upper()` (ASCII fragment). -/
def strUpper (s : String) : String := (s.data.map chUpper).asString

/-- Python `s.lower()` (ASCII fragment). -/
def strLower (s : String) : String := (s.data.map chLower).asString

/-- Python `s.replace(a, b)` for single-character patterns. -/
def strReplaceChar (a b : Char) (s : String) : String :=
  (s.data.map (fun c => if c = a then b else c)).asString

/-- List-of-characters prefix test. -/
def startsWithA : List Char → List Char → Bool
  | [], _ => true
  | _ :: _, [] => false
  | a :: as, b :: bs => a = b && startsWithA as bs

/-- Python `needle in hay` on strings (substring containment). -/
def containsSubA (needle : List Char) : List Char → Bool
  | [] => needle.isEmpty
  | h :: t => startsWithA needle (h :: t) || containsSubA needle t

/-- Python substring containment on `String`. -/
def containsSub (needle hay : String) : Bool := containsSubA needle.data hay.data

/-- Python whitespace characters recognised by `str.strip()` (ASCII fragment). -/
def isPyWs (c : Char) : Bool :=
  c = ' ' || c = '\t' || c = '\n' || c = '\x0d' || c = '\x0b' || c = '\x0c'

/-- Python `s.strip()` (ASCII whitespace fragment). -/
def strStrip (s : String) : String :=
  ((s.data.dropWhile isPyWs).reverse.dropWhile isPyWs).reverse.asString

/-! ### Python exception classes crossing the embedded functions -/

/-- The exception classes that the embedded code can raise.  `deserializer`
stands for the repository's own `DeserializerError` (krawl/errors.py, a
collaborator class not under src/), `tomlDecode` for the toml library's
`TomlDecodeError`. -/
inductive PyErr where
  | keyError (k : String)
  | typeError (msg : String)
  | valueError (msg : String)
  | attributeError (msg : String)
  | deserializer (msg : String)
  | tomlDecode (msg : String)
deriving DecidableEq

/-- Modelled from the spec: a canonical license identifier as resolved by the
License Resolver (krawl/licenses.py is not under src/); the resolver yields
either a canonical identifier or null. -/
structure License where
  id : String
deriving DecidableEq

/-- A Python `datetime` value: calendar fields plus an optional fixed UTC
offset in minutes (`none` models a naive datetime, `some o` an aware one). -/
structure PyDateTime where
  year : Nat
  month : Nat
  day : Nat
  hour : Nat
  minute : Nat
  second : Nat
  microsecond : Nat
  tzOffsetMinutes : Option Int
deriving DecidableEq

/-- Values of the loosely-typed metadata tree handed to the normalizer.
`pylicense` models the License object that `_get_files` injects under the
`"license"` key of a raw file dict before calling `_parse_file`. -/
inductive PyVal where
  | pynone
  | pybool (b : Bool)
  | pyint (n : Int)
  | pystr (s : String)
  | pylist (xs : List PyVal)
  | pydict (entries : List (String × PyVal))
  | pylicense (l : Option License)

/-- Python truthiness of a `PyVal`. -/
def pyTruthy : PyVal → Bool
  | .pynone => false
  | .pybool b => b
  | .pyint n => n != 0
  | .pystr s => !s.isEmpty
  | .pylist xs => !xs.isEmpty
  | .pydict es => !es.isEmpty
  | .pylicense l => l.isSome

/-- First-match association lookup, the embedding of `d[k]`/`k in d` on a
Python dict whose insertion order is the list order. -/
def dictGet : List (String × PyVal) → String → Option PyVal
  | [], _ => none
  | (k0, v) :: rest, k => if k0 = k then some v else dictGet rest k

/-- Python `d.get(k)` (default `None`). -/
def rawGet (es : List (String × PyVal)) (k : String) : PyVal :=
  (dictGet es k).getD .pynone

/-- Python `d[k]` on the raw record: `KeyError` when the key is absent. -/
def rawIndex (es : List (String × PyVal)) (k : String) : Except PyErr PyVal :=
  match dictGet es k with
  | some v => .ok v
  | none => .error (.keyError k)

/-- Python `d[k] = v`: replace the value at an existing key in place,
otherwise append the new key at the end. -/
def dictSet (es : List (String × PyVal)) (k : String) (v : PyVal) :
    List (String × PyVal) :=
  if (dictGet es k).isSome then
    es.map (fun kv => if kv.1 = k then (kv.1, v) else kv)
  else
    es ++ [(k, v)]

/-- Python `d.update(new)`: overwrite values of existing keys in place and
append the genuinely new keys in their order in `new`. -/
def dictUpdate (es new : List (String × PyVal)) : List (String × PyVal) :=
  es.map (fun kv => (kv.1, (dictGet new kv.1).getD kv.2)) ++
    new.filter (fun kv => (dictGet es kv.1).isNone)

/-- Python `str(v)` restricted to the values the code converts in f-strings
(strings themselves and None; other conversions do not occur on the paths
the claims exercise). -/
def pyStrOf : PyVal → String
  | .pystr s => s
  | .pynone => "None"
  | _ => ""

/-! ### Field Extractor: `OshwaNormalizer._get_key` -/

/-- Python `k in v` for a string key `k`: dict key membership, substring
test on strings, element equality on lists; `TypeError` on values that do
not support membership. -/
def pyContains (v : PyVal) (k : String) : Except PyErr Bool :=
  match v with
  | .pydict es => .ok (dictGet es k).isSome
  | .pystr s => .ok (containsSub k s)
  | .pylist xs => .ok (xs.any (fun x => match x with | .pystr s => s = k | _ => false))
  | _ => .error (.typeError "argument is not iterable")

/-- Python `v[k]` for a string key `k`: dict item lookup; `TypeError` on
strings, lists and the other non-mapping values (string/list indices must
be integers). -/
def pyGetItem (v : PyVal) (k : String) : Except PyErr PyVal :=
  match v with
  | .pydict es =>
      match dictGet es k with
      | some w => .ok w
      | none => .error (.keyError k)
  | .pystr _ => .error (.typeError "string indices must be integers")
  | .pylist _ => .error (.typeError "list indices must be integers")
  | _ => .error (.typeError "value is not subscriptable")

/-- The `OshwaNormalizer._get_key(obj, *key, default=None)`:
walk the tree key by key; at each step `if not last or k not in last:
return default`, then `last = last[k]`; after the loop `if not last:
return default`.  The membership test and the indexing can raise. -/
def getKey (obj : PyVal) (keys : List String) (default : PyVal) :
    Except PyErr PyVal :=
  match keys with
  | [] => if pyTruthy obj then .ok obj else .ok default
  | k :: ks =>
      if pyTruthy obj then
        match pyContains obj k with
        | .error e => .error e
        | .ok c =>
            if c then
              match pyGetItem obj k with
              | .error e => .error e
              | .ok v => getKey v ks default
            else .ok default
      else .ok default

/-- The Field Extractor as the claim words it: walk the keys through nested
mappings; whenever an intermediate or final value is missing, falsy, or not
a mapping, yield the caller-supplied default; never an exception. -/
def pureWalk (default : PyVal) : PyVal → List String → PyVal
  | v, [] => if pyTruthy v then v else default
  | v, k :: ks =>
      if pyTruthy v then
        match v with
        | .pydict es =>
            match dictGet es k with
            | some w => pureWalk default w ks
            | none => default
        | _ => default
      else default

/-- The key walks on which `_get_key` is exception-free: every truthy value
met before the keys run out is either a mapping, or a non-mapping that does
not pass the Python membership test for the next key (a truthy string
containing the key as a substring, a list containing it, or a number, would
make `_get_key` raise). -/
def safeWalk : PyVal → List String → Bool
  | _, [] => true
  | v, k :: ks =>
      if pyTruthy v then
        match v with
        | .pydict es =>
            match dictGet es k with
            | some w => safeWalk w ks
            | none => true
        | .pystr s => !containsSub k s
        | .pylist xs => !(xs.any (fun x => match x with | .pystr s => s = k | _ => false))
        | _ => false
      else true

/-! ### `datetime.fromisoformat` (the fragment the code feeds it) -/

/-- Numeric value of an ASCII digit. -/
def digitVal (c : Char) : Option Nat :=
  if '0' ≤ c ∧ c ≤ '9' then some (c.toNat - 48) else none

/-- Parse exactly `n` digits into a number, returning the rest. -/
def parseDigits : Nat → Nat → List Char → Option (Nat × List Char)
  | 0, acc, cs => some (acc, cs)
  | n + 1, acc, cs =>
      match cs with
      | [] => none
      | c :: rest =>
          match digitVal c with
          | some d => parseDigits n (acc * 10 + d) rest
          | none => none

/-- Consume one expected character. -/
def expectChar (c : Char) : List Char → Option (List Char)
  | [] => none
  | x :: xs => if x = c then some xs else none

/-- Gregorian leap year, as `datetime` validates days. -/
def isLeapYear (y : Nat) : Bool :=
  y % 4 = 0 && (y % 100 != 0 || y % 400 = 0)

/-- Days in a month, as `datetime` validates days. -/
def daysInMonth (y m : Nat) : Nat :=
  if m = 2 then (if isLeapYear y then 29 else 28)
  else if m = 4 || m = 6 || m = 9 || m = 11 then 30
  else 31

/-- Parse the fractional-seconds part: exactly 3 or 6 digits after the dot,
yielding microseconds. -/
def parseFraction (cs : List Char) : Option (Nat × List Char) :=
  match parseDigits 6 0 cs with
  | some (v, rest) => some (v, rest)
  | none =>
      match parseDigits 3 0 cs with
      | some (v, rest) => some (v * 1000, rest)
      | none => none

/-- Parse the trailing `±HH:MM` UTC offset; `none` input chars mean a naive
result.  Returns the offset in minutes. -/
def parseTz (cs : List Char) : Option (Option Int) :=
  match cs with
  | [] => some none
  | sgn :: rest =>
      if sgn = '+' ∨ sgn = '-' then
        match parseDigits 2 0 rest with
        | some (hh, rest1) =>
            match expectChar ':' rest1 with
            | some rest2 =>
                match parseDigits 2 0 rest2 with
                | some (mm, []) =>
                    if hh < 24 ∧ mm < 60 then
                      let off : Int := (hh * 60 + mm : Nat)
                      some (some (if sgn = '-' then -off else off))
                    else none
                | _ => none
            | none => none
        | none => none
      else none

/-- Parse the time-of-day part `HH[:MM[:SS[.ffffff]]][±HH:MM]`. -/
def parseTime (cs : List Char) : Option (Nat × Nat × Nat × Nat × Option Int) :=
  match parseDigits 2 0 cs with
  | none => none
  | some (hh, rest) =>
      let step : List Char → Option (Nat × List Char) := fun l =>
        match expectChar ':' l with
        | some l1 => parseDigits 2 0 l1
        | none => none
      match step rest with
      | none =>
          match parseTz rest with
          | some tz => some (hh, 0, 0, 0, tz)
          | none => none
      | some (mi, rest1) =>
          match step rest1 with
          | none =>
              match parseTz rest1 with
              | some tz => some (hh, mi, 0, 0, tz)
              | none => none
          | some (ss, rest2) =>
              match expectChar '.' rest2 with
              | none =>
                  match parseTz rest2 with
                  | some tz => some (hh, mi, ss, 0, tz)
                  | none => none
              | some rest3 =>
                  match parseFraction rest3 with
                  | some (us, rest4) =>
                      match parseTz rest4 with
                      | some tz => some (hh, mi, ss, us, tz)
                      | none => none
                  | none => none

/-- The `datetime.fromisoformat`: `YYYY-MM-DD[<sep>HH[:MM[:SS[.ffffff]]][±HH:MM]]`
with any single separator character, validating calendar and clock ranges;
raises `ValueError` on anything else. -/
def fromisoformat (s : String) : Except PyErr PyDateTime :=
  let fail : Except PyErr PyDateTime :=
    .error (.valueError ("Invalid isoformat string: " ++ s))
  match parseDigits 4 0 s.data with
  | none => fail
  | some (y, r1) =>
      match expectChar '-' r1 with
      | none => fail
      | some r2 =>
          match parseDigits 2 0 r2 with
          | none => fail
          | some (mo, r3) =>
              match expectChar '-' r3 with
              | none => fail
              | some r4 =>
                  match parseDigits 2 0 r4 with
                  | none => fail
                  | some (d, r5) =>
                      if 1 ≤ mo ∧ mo ≤ 12 ∧ 1 ≤ d ∧ d ≤ daysInMonth y mo then
                        match r5 with
                        | [] => .ok ⟨y, mo, d, 0, 0, 0, 0, none⟩
                        | _ :: r6 =>
                            match parseTime r6 with
                            | some (hh, mi, ss, us, tz) =>
                                if hh < 24 ∧ mi < 60 ∧ ss < 60 then
                                  .ok ⟨y, mo, d, hh, mi, ss, us, tz⟩
                                else fail
                            | none => fail
                      else fail

/-! ### `urllib.parse.quote` -/

/-- Upper-case hexadecimal digit. -/
def hexDigitU (n : Nat) : Char :=
  if n < 10 then Char.ofNat (48 + n) else Char.ofNat (55 + n)

/-- UTF-8 encoding of one code point. -/
def utf8BytesOfChar (c : Char) : List Nat :=
  let n := c.toNat
  if n < 0x80 then [n]
  else if n < 0x800 then [0xC0 + n / 0x40, 0x80 + n % 0x40]
  else if n < 0x10000 then
    [0xE0 + n / 0x1000, 0x80 + (n / 0x40) % 0x40, 0x80 + n % 0x40]
  else
    [0xF0 + n / 0x40000, 0x80 + (n / 0x1000) % 0x40,
     0x80 + (n / 0x40) % 0x40, 0x80 + n % 0x40]

/-- Characters `urllib.parse.quote` never encodes (unreserved plus the
default safe character `/`). -/
def quoteSafe (c : Char) : Bool :=
  ('A' ≤ c && c ≤ 'Z') || ('a' ≤ c && c ≤ 'z') || ('0' ≤ c && c ≤ '9') ||
  c = '_' || c = '.' || c = '-' || c = '~' || c = '/'

/-- The `urllib.parse.quote` on a string. -/
def urlquoteStr (s : String) : String :=
  (s.data.flatMap (fun c =>
    if quoteSafe c then [c]
    else (utf8BytesOfChar c).flatMap
      (fun b => ['%', hexDigitU (b / 16), hexDigitU (b % 16)]))).asString

/-- The `urllib.parse.quote` applied to a raw value: only strings are accepted,
anything else raises `TypeError`. -/
def urlquote : PyVal → Except PyErr String
  | .pystr s => .ok (urlquoteStr s)
  | _ => .error (.typeError "quote_from_bytes() expected bytes")

/-! ### `pathlib.Path` (the operations the code uses) -/

/-- Split a character list at the LAST occurrence of `c` into the parts
before and after it; `none` when `c` does not occur. -/
def splitLastChar (c : Char) : List Char → Option (List Char × List Char)
  | [] => none
  | x :: xs =>
      match splitLastChar c xs with
      | some (b, a) => some (x :: b, a)
      | none => if x = c then some ([], xs) else none

/-- A relative filesystem path: the directory part (empty when none) and the
final component. -/
structure FPath where
  parent : String
  name : String
deriving DecidableEq

/-- The `pathlib.Path(s)` for the relative paths the provider sends: split at
the last `/`. -/
def fpathOf (s : String) : FPath :=
  match splitLastChar '/' s.data with
  | some (b, a) => ⟨b.asString, a.asString⟩
  | none => ⟨"", s⟩

/-- The `Path.stem`: the final component without its suffix; a dot at position 0
or at the very end does not start a suffix (`.bashrc`, `a.` keep their
names), as in CPython. -/
def pathStem (p : FPath) : String :=
  match splitLastChar '.' p.name.data with
  | some (b, a) => if b ≠ [] ∧ a ≠ [] then b.asString else p.name
  | none => p.name

/-- The `Path.suffix`: the dotted extension of the final component, `""` when
there is none. -/
def pathSuffix (p : FPath) : String :=
  match splitLastChar '.' p.name.data with
  | some (b, a) => if b ≠ [] ∧ a ≠ [] then ('.' :: a).asString else ""
  | none => ""

/-- The `str(path.with_suffix(""))`: the whole path with the last extension of
the final component stripped. -/
def pathNoSuffixStr (p : FPath) : String :=
  (if p.parent = "" then "" else p.parent ++ "/") ++ pathStem p

/-! ### The canonical File and Part entities -/

/-- One canonical File entity as built by `OshwaNormalizer._parse_file`
(the `File` class itself lives in krawl/project.py, not under src/; its
field list is modelled from the spec's data model and the assignments in
`_parse_file`). -/
structure File where
  path : Option FPath
  name : Option String
  mime_type : PyVal
  url : PyVal
  perma_url : PyVal
  created_at : PyDateTime
  last_changed : PyDateTime
  last_visited : PyDateTime
  license : Option License
  licensor : PyVal

/-- Modelled from the spec: `File.extension` (krawl/project.py is not under
src/) is the file's extension without the leading dot, lower-cased, and
`""` for a file without path or suffix; the Format Registry is keyed by
dotted lower-case extensions and the code looks up `"." + file.extension`. -/
def File.extension (f : File) : String :=
  match f.path with
  | some p =>
      match (pathSuffix p).data with
      | [] => ""
      | _ :: rest => strLower rest.asString
  | none => ""

/-- One logical hardware Part (the `Part` class lives in krawl/project.py,
not under src/; modelled from the spec: a fresh `Part()` has every field
unset and an empty export list).  The Python attribute `export` is named
`exports` here because `export` is a Lean keyword. -/
structure Part where
  name : Option String
  license : Option License
  licensor : PyVal
  source : Option File
  exports : List File
  image : Option File

/-- A fresh `Part()`. -/
def Part.empty : Part := ⟨none, none, .pynone, none, [], none⟩

/-! ### Static tables of krawl/normalizer/oshwa.py -/

/-- The `EXCLUDE_FILES`: administrative document names never treated as parts. -/
def EXCLUDE_FILES : List String :=
  ["ACKNOWLEDGMENTS", "AUTHORS", "CHANGELOG", "CODE_OF_CONDUCT", "CODEOWNERS",
   "CONTRIBUTING", "CONTRIBUTORS", "FUNDING", "ISSUE_TEMPLATE", "LICENSE",
   "PULL_REQUEST_TEMPLATE", "README", "SECURITY", "SUPPORT", "USERGUIDE",
   "USERMANUAL"]

/-- The `LICENSE_MAPPING`: provider license labels to canonical identifiers. -/
def LICENSE_MAPPING : List (String × String) :=
  [("CC-BY-4.0", "CC-BY-4.0"), ("CC0-1.0", "CC0-1.0"), ("MIT", "MIT"),
   ("BSD-2-Clause", "BSD-2-Clause"), ("CC-BY-SA-4.0", "CC-BY-SA-4.0"),
   ("CC BY-SA", "CC-BY-SA-4.0"), ("GPL-3.0", "GPL-3.0-only"),
   ("OHL", "TAPR-OHL-1.0"), ("CERN OHL", "CERN-OHL-1.2"),
   ("CERN", "CERN-OHL-1.2"), ("alternativeLicense", "MIT")]

/-- First-match lookup in a string-keyed table (Python `dict.get`). -/
def tableGet : List (String × String) → String → Option String
  | [], _ => none
  | (k0, v) :: rest, k => if k0 = k then some v else tableGet rest k

/-- The `unmappable_categories` list of `_normalize_classification`. -/
def unmappableCategories : List String :=
  ["Arts", "Education", "Environmental", "Manufacturing", "Other", "Science",
   "Tool"]

/-- The `mapping_primary_to_cpc` table of `_normalize_classification`. -/
def mappingPrimaryToCpc : List (String × String) :=
  [("3D Printing", "B33Y"), ("Agriculture", "A01"), ("Electronics", "H"),
   ("Enclosure", "F16M"), ("Home Connection", "H04W"), ("IOT", "H04"),
   ("Robotics", "B25J9 / 00"), ("Sound", "H04R"), ("Space", "B64G"),
   ("Wearables", "H")]

/-! ### Scalar-field normalizers of `OshwaNormalizer` -/

/-- Modelled from the spec: `licenses.get_by_id_or_name`
(krawl/licenses.py is not under src/).  The License Resolver maps a
canonical identifier to itself and resolves an absent label to "no
license" (null). -/
def getByIdOrName : Option String → Option License
  | none => none
  | some s => some ⟨s⟩

/-- The `OshwaNormalizer._normalize_license`. -/
def normalizeLicense (raw : List (String × PyVal)) :
    Except PyErr (Option License) :=
  match getKey (.pydict raw) ["hardwareLicense"] .pynone with
  | .error e => .error e
  | .ok rawLicense =>
      if !pyTruthy rawLicense then .ok none
      else
        match rawLicense with
        | .pystr s =>
            if s = "None" ∨ s = "Other" then .ok none
            else .ok (getByIdOrName (tableGet LICENSE_MAPPING s))
        | .pylist _ => .error (.typeError "unhashable type")
        | .pydict _ => .error (.typeError "unhashable type")
        | _ => .ok (getByIdOrName none)

/-- The `OshwaNormalizer._normalize_created_at`: parse `certificationDate` with
`datetime.fromisoformat` when truthy, else the naive sentinel
`datetime.fromisoformat("1970-01-01 00:00:00")`. -/
def normalizeCreatedAt (raw : List (String × PyVal)) :
    Except PyErr PyDateTime :=
  match rawGet raw "certificationDate" with
  | .pystr s =>
      if s = "" then fromisoformat "1970-01-01 00:00:00"
      else fromisoformat s
  | v =>
      if pyTruthy v then .error (.typeError "fromisoformat: argument must be str")
      else fromisoformat "1970-01-01 00:00:00"

/-- The `OshwaNormalizer._normalize_classification`. -/
def normalizeClassification (raw : List (String × PyVal)) :
    Except PyErr PyVal :=
  let primaryType := rawGet raw "primaryType"
  let additionalType := rawGet raw "additionalType"
  let isUnmappable :=
    match primaryType with
    | .pystr s => unmappableCategories.contains s
    | _ => false
  if isUnmappable then
    match additionalType with
    | .pynone => .ok (.pystr "")
    | .pystr s => if s.length = 0 then .ok (.pystr "") else .ok (.pystr s)
    | .pylist xs => if xs.length = 0 then .ok (.pystr "") else .ok (.pylist xs)
    | .pydict es => if es.length = 0 then .ok (.pystr "") else .ok (.pydict es)
    | _ => .error (.typeError "object has no len()")
  else
    match primaryType with
    | .pystr s =>
        match tableGet mappingPrimaryToCpc s with
        | some cpc => .ok (.pystr cpc)
        | none => .ok (.pystr s)
    | .pylist _ => .error (.typeError "unhashable type")
    | .pydict _ => .error (.typeError "unhashable type")
    | v => .ok v

/-- The `OshwaNormalizer._normalize_function`: HTML-strip and trim the
description, `""` when absent or falsy.  `strip_html` lives in
krawl/normalizer/__init__.py (not under src/) and is passed in as the
text transform `stripHtml`. -/
def normalizeFunction (stripHtml : String → String)
    (raw : List (String × PyVal)) : Except PyErr String :=
  match rawGet raw "projectDescription" with
  | .pystr s => if s = "" then .ok "" else .ok (strStrip (stripHtml s))
  | v =>
      if pyTruthy v then .error (.typeError "strip_html expects a string")
      else .ok ""

/-- The `OshwaNormalizer._normalize_language`: statistical detection with
fallback to `"en"`; `detect` stands for `langdetect.detect` and its
`.error` case for a raised `LangDetectException`. -/
def normalizeLanguage (detect : String → Except Unit String)
    (description : String) : String :=
  if description = "" then "en"
  else
    match detect description with
    | .error _ => "en"
    | .ok lang => if lang = "unknown" then "en" else lang

/-- The `OshwaNormalizer._normalize_repo`: prefer `documentationUrl`, else
synthesize the registry URL from `oshwaUid` (a `KeyError` when both are
missing). -/
def normalizeRepo (raw : List (String × PyVal)) : Except PyErr PyVal :=
  let docUrl := rawGet raw "documentationUrl"
  if pyTruthy docUrl then .ok docUrl
  else
    match dictGet raw "oshwaUid" with
    | some uid =>
        .ok (.pystr ("https://certification.oshwa.org/" ++ pyStrOf uid ++ ".html"))
    | none => .error (.keyError "oshwaUid")

/-! ### File Normalizer: `_parse_file` and `_get_files` -/

/-- The `OshwaNormalizer._parse_file`: build one canonical `File` from a raw
file dict.  `strptime` stands for `datetime.strptime(_,
"%Y-%m-%dT%H:%M:%S.%f%z")` and `now` for `datetime.now(timezone.utc)`. -/
def parseFile (strptime : String → Except PyErr PyDateTime)
    (now : PyDateTime) (fileRaw : List (String × PyVal)) :
    Except PyErr File :=
  let pathE : Except PyErr (Option FPath) :=
    match dictGet fileRaw "filename" with
    | some (.pystr s) => .ok (some (fpathOf s))
    | some _ => .error (.typeError "argument should be a str or an os.PathLike object")
    | none => .ok none
  match pathE with
  | .error e => .error e
  | .ok path =>
      let name := path.map pathStem
      let mime := rawGet fileRaw "mimeType"
      let url := rawGet fileRaw "url"
      let perma := rawGet fileRaw "permalink"
      let createdE : Except PyErr PyDateTime :=
        match dictGet fileRaw "dateCreated" with
        | some (.pystr s) => strptime s
        | some _ => .error (.typeError "strptime() argument 1 must be str")
        | none => .error (.keyError "dateCreated")
      match createdE with
      | .error e => .error e
      | .ok created =>
          let changedE : Except PyErr PyDateTime :=
            match dictGet fileRaw "lastUpdated" with
            | some (.pystr s) => strptime s
            | some _ => .error (.typeError "strptime() argument 1 must be str")
            | none => .error (.keyError "lastUpdated")
          match changedE with
          | .error e => .error e
          | .ok changed =>
              let licenseE : Except PyErr (Option License) :=
                match dictGet fileRaw "license" with
                | some (.pylicense l) => .ok l
                | some _ => .error (.typeError "license field is not a License")
                | none => .error (.keyError "license")
              match licenseE with
              | .error e => .error e
              | .ok lic =>
                  match getKey (.pydict fileRaw) ["creator", "profile", "fullName"] .pynone with
                  | .error e => .error e
                  | .ok licensor =>
                      .ok ⟨path, name, mime, url, perma, created, changed, now,
                           lic, licensor⟩

/-- One iteration of the `for meta in raw_files` loop of `_get_files`:
skip entries without a truthy `"file"`, read `meta["dirname"]`, store the
joined `"path"` and the project license into the file dict, then parse. -/
def getFilesStep (strptime : String → Except PyErr PyDateTime)
    (now : PyDateTime) (license : Option License) (meta : PyVal) :
    Except PyErr (Option File) :=
  match meta with
  | .pydict mes =>
      let fileRaw := (dictGet mes "file").getD .pynone
      if !pyTruthy fileRaw then .ok none
      else
        match fileRaw with
        | .pydict fes =>
            match dictGet mes "dirname" with
            | none => .error (.keyError "dirname")
            | some dirName =>
                let withPathE : Except PyErr (List (String × PyVal)) :=
                  if pyTruthy dirName then
                    match dictGet fes "filename" with
                    | some fn =>
                        .ok (dictSet fes "path"
                          (.pystr (pyStrOf dirName ++ "/" ++ pyStrOf fn)))
                    | none => .error (.keyError "filename")
                  else .ok fes
                match withPathE with
                | .error e => .error e
                | .ok fes1 =>
                    match parseFile strptime now (dictSet fes1 "license" (.pylicense license)) with
                    | .error e => .error e
                    | .ok f => .ok (some f)
        | _ => .error (.typeError "item assignment on a non-dict file entry")
  | _ => .error (.attributeError "object has no attribute get")

/-- The loop body of `_get_files` over the raw file list. -/
def getFilesLoop (strptime : String → Except PyErr PyDateTime)
    (now : PyDateTime) (license : Option License) :
    List PyVal → Except PyErr (List File)
  | [] => .ok []
  | meta :: rest =>
      match getFilesStep strptime now license meta with
      | .error e => .error e
      | .ok none => getFilesLoop strptime now license rest
      | .ok (some f) =>
          match getFilesLoop strptime now license rest with
          | .error e => .error e
          | .ok fs => .ok (f :: fs)

/-- The `OshwaNormalizer._get_files`: fetch `contribution.files` (default `[]`)
through the Field Extractor, resolve the project license, and parse each
entry. -/
def getFiles (strptime : String → Except PyErr PyDateTime)
    (now : PyDateTime) (raw : List (String × PyVal)) :
    Except PyErr (List File) :=
  match getKey (.pydict raw) ["contribution", "files"] (.pylist []) with
  | .error e => .error e
  | .ok rawFiles =>
      match normalizeLicense raw with
      | .error e => .error e
      | .ok license =>
          match rawFiles with
          | .pylist metas => getFilesLoop strptime now license metas
          | _ => .error (.typeError "iteration over a non-list file collection")

/-! ### Part Classifier: `_normalize_parts` -/

/-- The normalized base name used by the exclusion filter:
`file.path.stem.replace(" ", "_").replace("-", "_").upper()`; raises
(`AttributeError`) on a file without a path. -/
def normalizedExclusionName (f : File) : Except PyErr String :=
  match f.path with
  | some p => .ok (strUpper (strReplaceChar '-' '_' (strReplaceChar ' ' '_' (pathStem p))))
  | none => .error (.attributeError "NoneType object has no attribute stem")

/-- The exclusion filter loop of `_normalize_parts`. -/
def filterExcluded : List File → Except PyErr (List File)
  | [] => .ok []
  | f :: fs =>
      match normalizedExclusionName f with
      | .error e => .error e
      | .ok n =>
          match filterExcluded fs with
          | .error e => .error e
          | .ok rest =>
              if EXCLUDE_FILES.contains n then .ok rest else .ok (f :: rest)

/-- The bucketing key: `str(file.path.with_suffix("")).lower()`; raises on
a file without a path. -/
def bucketKeyE (f : File) : Except PyErr String :=
  match f.path with
  | some p => .ok (strLower (pathNoSuffixStr p))
  | none => .error (.attributeError "NoneType object has no attribute with_suffix")

/-- Total variant of the bucketing key (the classifier only reaches it on
files that already passed the exclusion filter, which have paths). -/
def bucketKeyD (f : File) : String :=
  match f.path with
  | some p => strLower (pathNoSuffixStr p)
  | none => ""

/-- Append a file to its bucket, creating the bucket at the end on first
sight — the `defaultdict(list)` insertion-order behaviour. -/
def insertBucket : List (String × List File) → String → File →
    List (String × List File)
  | [], k, f => [(k, [f])]
  | (k0, l) :: rest, k, f =>
      if k0 = k then (k0, l ++ [f]) :: rest
      else (k0, l) :: insertBucket rest k f

/-- First-match bucket lookup. -/
def bucketGet : List (String × List File) → String → List File
  | [], _ => []
  | (k0, l) :: rest, k => if k0 = k then l else bucketGet rest k

/-- The bucketing loop of `_normalize_parts`, in Python dict insertion
order. -/
def bucketsOf (files : List File) : List (String × List File) :=
  files.foldl (fun acc f => insertBucket acc (bucketKeyD f) f) []

/-- The body of the bucketing loop with the faithful raising key. -/
def bucketsGo (acc : List (String × List File)) :
    List File → Except PyErr (List (String × List File))
  | [] => .ok acc
  | f :: fs =>
      match bucketKeyE f with
      | .error e => .error e
      | .ok k => bucketsGo (insertBucket acc k f) fs

/-- The bucketing loop with the faithful raising key. -/
def bucketsOfE (files : List File) :
    Except PyErr (List (String × List File)) :=
  bucketsGo [] files

/-- One step of the per-bucket loop of `_normalize_parts`: look the dotted
extension up in the CAD formats, then the PCB formats, then the image
formats, exactly as the code short-circuits with `continue`. -/
def stepFile (cad pcb img : List (String × String)) (p : Part) (f : File) :
    Part :=
  let ext := "." ++ f.extension
  match tableGet cad ext with
  | some cat =>
      if cat = "source" then
        if p.source.isNone then { p with source := some f }
        else { p with exports := p.exports ++ [f] }
      else if cat = "export" then { p with exports := p.exports ++ [f] }
      else p
  | none =>
      match tableGet pcb ext with
      | some cat =>
          if cat = "source" then
            if p.source.isNone then { p with source := some f }
            else { p with exports := p.exports ++ [f] }
          else if cat = "export" then { p with exports := p.exports ++ [f] }
          else p
      | none =>
          match tableGet img ext with
          | some _ =>
              if p.image.isNone then { p with image := some f } else p
          | none => p

/-- Classification of one bucket: the file loop, the promotion of the first
export when no source was found, and the emit policy with
name/license/licensor copied from the source. -/
def classifyBucket (cad pcb img : List (String × String))
    (bucket : List File) : Option Part :=
  let p := bucket.foldl (stepFile cad pcb img) Part.empty
  let p1 :=
    match p.source, p.exports with
    | none, e :: es => { p with source := some e, exports := es }
    | _, _ => p
  match p1.source with
  | some src =>
      some { p1 with name := src.name, license := src.license,
                     licensor := src.licensor }
  | none => none

/-- The `OshwaNormalizer._normalize_parts`: exclusion filter, bucketing, and
per-bucket classification, over given CAD/PCB/image format registries. -/
def normalizeParts (cad pcb img : List (String × String))
    (files : List File) : Except PyErr (List Part) :=
  match filterExcluded files with
  | .error e => .error e
  | .ok filtered =>
      match bucketsOfE filtered with
      | .error e => .error e
      | .ok buckets =>
          .ok ((buckets.map (fun b => b.2)).filterMap
            (classifyBucket cad pcb img))

/-! ### The canonical Project and `OshwaNormalizer.normalize` -/

/-- The canonical Project as populated by `OshwaNormalizer.normalize`
(the `Project` class lives in krawl/project.py, not under src/; modelled
from the spec's data model: identity/provenance fields, descriptive
fields, and the structural ordered part list, which a fresh `Project()`
initializes empty).  Fields the normalizer explicitly sets to `None` are
`PyVal` fields holding `.pynone`. -/
structure Project where
  meta_source : PyVal
  meta_host : PyVal
  meta_owner : PyVal
  meta_repo : PyVal
  meta_created_at : PyDateTime
  meta_last_visited : PyVal
  name : PyVal
  repo : PyVal
  version : String
  release : String
  license : Option License
  licensor : PyVal
  function : String
  documentation_language : String
  technology_readiness_level : PyVal
  documentation_readiness_level : PyVal
  attestation : PyVal
  publication : PyVal
  standard_compliance : PyVal
  cpc_patent_class : PyVal
  tsdc : PyVal
  bom : PyVal
  manufacturing_instructions : PyVal
  outer_dimensions_mm : PyVal
  part : List Part
  software : List PyVal

/-- The `OshwaNormalizer.normalize`, statement by statement and in evaluation
order; every raising sub-expression is sequenced exactly where the Python
runs it.  The structural part list keeps the `Project()` default (the
`project.part = self._normalize_parts(files)` line is commented out in the
source and `files` is never computed). -/
def normalize (detect : String → Except Unit String)
    (stripHtml : String → String) (raw : List (String × PyVal)) :
    Except PyErr Project :=
  match rawIndex raw "fetcher" with
  | .error e => .error e
  | .ok fetcher =>
  match rawIndex raw "responsibleParty" with
  | .error e => .error e
  | .ok owner =>
  match normalizeRepo raw with
  | .error e => .error e
  | .ok metaRepo =>
  match normalizeCreatedAt raw with
  | .error e => .error e
  | .ok createdAt =>
  match rawIndex raw "lastVisited" with
  | .error e => .error e
  | .ok lastVisited =>
  match rawIndex raw "projectName" with
  | .error e => .error e
  | .ok projectName =>
  match normalizeRepo raw with
  | .error e => .error e
  | .ok repo =>
  match getKey (.pydict raw) ["projectVersion"] (.pystr "0.1.0") with
  | .error e => .error e
  | .ok versionRaw =>
  match urlquote versionRaw with
  | .error e => .error e
  | .ok version =>
  match normalizeLicense raw with
  | .error e => .error e
  | .ok license =>
  match normalizeFunction stripHtml raw with
  | .error e => .error e
  | .ok function =>
  match normalizeClassification raw with
  | .error e => .error e
  | .ok cpc =>
  .ok { meta_source := fetcher, meta_host := fetcher, meta_owner := owner,
        meta_repo := metaRepo, meta_created_at := createdAt,
        meta_last_visited := lastVisited, name := projectName, repo := repo,
        version := version, release := "", license := license,
        licensor := owner, function := function,
        documentation_language := normalizeLanguage detect function,
        technology_readiness_level := .pynone,
        documentation_readiness_level := .pynone, attestation := .pynone,
        publication := .pynone, standard_compliance := .pynone,
        cpc_patent_class := cpc, tsdc := .pynone, bom := .pynone,
        manufacturing_instructions := .pynone,
        outer_dimensions_mm := .pynone, part := [], software := [] }

/-! ### The two project deserializers -/

/-- Whether an embedded parse result is a key-value tree
(`isinstance(deserialized, Mapping)`). -/
def isMapping : PyVal → Bool
  | .pydict _ => true
  | _ => false

/-- The `JSONProjectDeserializer.deserialize`: `json.loads` inside a
`try/except` that wraps ANY parse exception into `DeserializerError`, then
the Mapping check, the optional enrichment overlay, and the normalizer
call.  `loads` stands for `json.loads`; its `.error` carries the message
of the raised exception. -/
def jsonDeserialize (loads : String → Except String PyVal)
    (normFn : List (String × PyVal) → Except PyErr Project)
    (serialized : String) (enrich : Option (List (String × PyVal))) :
    Except PyErr Project :=
  match loads serialized with
  | .error err => .error (.deserializer ("failed to deserialize JSON: " ++ err))
  | .ok v =>
      if isMapping v then
        match v with
        | .pydict es =>
            let es1 :=
              match enrich with
              | some en => if en.isEmpty then es else dictUpdate es en
              | none => es
            normFn es1
        | _ => .error (.deserializer "invalid format")
      else .error (.deserializer "invalid format")

/-- The `TOMLProjectDeserializer.deserialize`: `toml.loads` is NOT wrapped —
whatever it raises (a `TomlDecodeError` on malformed input) propagates
unchanged; only a successful parse that is not a Mapping raises
`DeserializerError("invalid format")`.  `loads` stands for `toml.loads`. -/
def tomlDeserialize (loads : String → Except PyErr PyVal)
    (normFn : List (String × PyVal) → Except PyErr Project)
    (serialized : String) (enrich : Option (List (String × PyVal))) :
    Except PyErr Project :=
  match loads serialized with
  | .error e => .error e
  | .ok v =>
      if isMapping v then
        match v with
        | .pydict es =>
            let es1 :=
              match enrich with
              | some en => if en.isEmpty then es else dictUpdate es en
              | none => es
            normFn es1
        | _ => .error (.deserializer "invalid format")
      else .error (.deserializer "invalid format")

/-- Whether a result is a raised `DeserializerError`. -/
def isDeserializerErr {α : Type} : Except PyErr α → Bool
  | .error (.deserializer _) => true
  | _ => false

/-- Whether a result is a success. -/
def exceptIsOk {ε α : Type} : Except ε α → Bool
  | .ok _ => true
  | .error _ => false

/-- A successful result carries a value. -/
lemma exists_ok_of_isOk {ε α : Type} (x : Except ε α)
    (h : exceptIsOk x = true) : ∃ a, x = .ok a := by
  cases x with
  | ok a => exact ⟨a, rfl⟩
  | error e => simp [exceptIsOk] at h

/-! ### Declarative restatement of the per-bucket classification (for C1) -/

/-- The registry category governing a file in the per-bucket loop: the CAD
table is consulted first (a CAD hit of any category short-circuits the PCB
lookup, as the code's `continue` does), then the PCB table. -/
def catOf (cad pcb : List (String × String)) (f : File) : Option String :=
  match tableGet cad ("." ++ f.extension) with
  | some c => some c
  | none => tableGet pcb ("." ++ f.extension)

/-- The file is a CAD/PCB format of category `source`. -/
def isSrcB (cad pcb : List (String × String)) (f : File) : Bool :=
  catOf cad pcb f == some "source"

/-- The file is a CAD/PCB format of category `export`. -/
def isExpB (cad pcb : List (String × String)) (f : File) : Bool :=
  catOf cad pcb f == some "export"

/-- The file is classified (category `source` or `export`). -/
def isClsB (cad pcb : List (String × String)) (f : File) : Bool :=
  isSrcB cad pcb f || isExpB cad pcb f

/-- The file reaches the image lookup (no CAD and no PCB entry) and is an
image format. -/
def isImgCandB (cad pcb img : List (String × String)) (f : File) : Bool :=
  (tableGet cad ("." ++ f.extension)).isNone &&
  (tableGet pcb ("." ++ f.extension)).isNone &&
  (tableGet img ("." ++ f.extension)).isSome

/-- The export list accumulated by the loop when no source was assigned
yet: classified files in original order, except that the first
`source`-category file is taken out (it becomes the source) and everything
classified after it is appended. -/
def expAfter (cad pcb : List (String × String)) : List File → List File
  | [] => []
  | f :: fs =>
      if isSrcB cad pcb f then fs.filter (isClsB cad pcb)
      else if isExpB cad pcb f then f :: expAfter cad pcb fs
      else expAfter cad pcb fs

/-- The Part Classifier's per-bucket outcome as the claim words it:
every `source`-category file becomes the source if it is still unset and
an export entry otherwise; every `export`-category file is appended to the
exports in original order; with no source but a non-empty export list the
first export is promoted; a Part is emitted iff the source is non-null,
with name, license and licensor copied from the source; the first image
wins. -/
def specClassify (cad pcb img : List (String × String))
    (bucket : List File) : Option Part :=
  let classified := bucket.filter (isClsB cad pcb)
  let firstImage := (bucket.filter (isImgCandB cad pcb img)).head?
  match bucket.find? (isSrcB cad pcb) with
  | some s =>
      some ⟨s.name, s.license, s.licensor, some s,
            classified.eraseP (isSrcB cad pcb), firstImage⟩
  | none =>
      match classified with
      | [] => none
      | e :: es => some ⟨e.name, e.license, e.licensor, some e, es, firstImage⟩

/-- The `stepFile` in terms of the combined category tests. -/
lemma stepFile_eq (cad pcb img : List (String × String)) (p : Part)
    (f : File) :
    stepFile cad pcb img p f =
      if isSrcB cad pcb f then
        (if p.source.isNone then { p with source := some f }
         else { p with exports := p.exports ++ [f] })
      else if isExpB cad pcb f then { p with exports := p.exports ++ [f] }
      else if isImgCandB cad pcb img f then
        (if p.image.isNone then { p with image := some f } else p)
      else p := by
  unfold stepFile isSrcB isExpB isImgCandB catOf
  rcases hc : tableGet cad ("." ++ f.extension) with _ | c
  · rcases hp : tableGet pcb ("." ++ f.extension) with _ | c
    · rcases hi : tableGet img ("." ++ f.extension) with _ | c <;> simp [hc, hp, hi]
    · by_cases hs : c = "source"
      · simp [hc, hp, hs]
      · by_cases he : c = "export" <;> simp [hc, hp, hs, he]
  · by_cases hs : c = "source"
    · simp [hc, hs]
    · by_cases he : c = "export" <;> simp [hc, hs, he]

/-- A classified file never reaches the image lookup. -/
lemma isImgCand_false_of_cls (cad pcb img : List (String × String))
    (f : File) (h : isClsB cad pcb f) :
    isImgCandB cad pcb img f = false := by
  unfold isClsB isSrcB isExpB catOf isImgCandB at *
  rcases hc : tableGet cad ("." ++ f.extension) with _ | c
  · rcases hp : tableGet pcb ("." ++ f.extension) with _ | c <;>
      simp [hc, hp] at h ⊢
  · simp [hc]

/-- The head of a filtered list is the first element satisfying the
predicate. -/
lemma head?_filter_eq_find? {α : Type} (p : α → Bool) :
    ∀ l : List α, (l.filter p).head? = l.find? p := by
  intro l
  induction l with
  | nil => simp
  | cons a l ih =>
      by_cases h : p a <;> simp [List.filter_cons, List.find?_cons, h, ih]

/-- Characterization of the per-bucket file loop, for any starting
accumulator. -/
lemma foldl_stepFile_char (cad pcb img : List (String × String)) :
    ∀ (fs : List File) (p : Part),
      fs.foldl (stepFile cad pcb img) p =
        { name := p.name, license := p.license, licensor := p.licensor,
          source :=
            (match p.source with
             | some s => some s
             | none => fs.find? (isSrcB cad pcb)),
          exports := p.exports ++
            (match p.source with
             | some _ => fs.filter (isClsB cad pcb)
             | none => expAfter cad pcb fs),
          image :=
            (match p.image with
             | some i => some i
             | none => (fs.filter (isImgCandB cad pcb img)).head?) } := by
  intro fs
  induction fs with
  | nil =>
      intro p
      obtain ⟨n, lic, lor, src, exps, im⟩ := p
      cases src <;> cases im <;> simp [expAfter]
  | cons f fs ih =>
      intro p
      rw [List.foldl_cons, ih, stepFile_eq]
      by_cases hs : isSrcB cad pcb f
      · have hcls : isClsB cad pcb f := by simp [isClsB, hs]
        have himg := isImgCand_false_of_cls cad pcb img f hcls
        obtain ⟨n, lic, lor, src, exps, im⟩ := p
        cases src <;> cases im <;>
          simp [hs, hcls, himg, expAfter, List.find?_cons, List.filter_cons,
            head?_filter_eq_find?]
      · by_cases he : isExpB cad pcb f
        · have hcls : isClsB cad pcb f := by simp [isClsB, he]
          have himg := isImgCand_false_of_cls cad pcb img f hcls
          obtain ⟨n, lic, lor, src, exps, im⟩ := p
          cases src <;> cases im <;>
            simp [hs, he, hcls, himg, expAfter, List.find?_cons,
              List.filter_cons, head?_filter_eq_find?]
        · have hcls : ¬ isClsB cad pcb f := by simp [isClsB, hs, he]
          by_cases hi : isImgCandB cad pcb img f
          · obtain ⟨n, lic, lor, src, exps, im⟩ := p
            cases src <;> cases im <;>
              simp [hs, he, hcls, hi, expAfter, List.find?_cons,
                List.filter_cons, head?_filter_eq_find?]
          · obtain ⟨n, lic, lor, src, exps, im⟩ := p
            cases src <;> cases im <;>
              simp [hs, he, hcls, hi, expAfter, List.find?_cons,
                List.filter_cons, head?_filter_eq_find?]

/-- The loop's export list equals "classified files minus the first
`source`-category one". -/
lemma expAfter_eq_eraseP (cad pcb : List (String × String)) :
    ∀ fs : List File,
      expAfter cad pcb fs =
        (fs.filter (isClsB cad pcb)).eraseP (isSrcB cad pcb) := by
  intro fs
  induction fs with
  | nil => simp [expAfter]
  | cons f fs ih =>
      by_cases hs : isSrcB cad pcb f
      · have hcls : isClsB cad pcb f := by simp [isClsB, hs]
        simp [expAfter, hs, hcls, List.filter_cons, List.eraseP_cons]
      · by_cases he : isExpB cad pcb f
        · have hcls : isClsB cad pcb f := by simp [isClsB, he]
          simp [expAfter, hs, he, hcls, List.filter_cons, List.eraseP_cons, ih]
        · have hcls : ¬ isClsB cad pcb f := by simp [isClsB, hs, he]
          simp [expAfter, hs, he, hcls, List.filter_cons, ih]

/-- The code's per-bucket classification coincides with the declarative
restatement, for every bucket and every registry. -/
lemma classifyBucket_eq_spec (cad pcb img : List (String × String))
    (bucket : List File) :
    classifyBucket cad pcb img bucket = specClassify cad pcb img bucket := by
  unfold classifyBucket specClassify
  rw [foldl_stepFile_char]
  rcases hfind : bucket.find? (isSrcB cad pcb) with _ | s
  · have hnone : ∀ x ∈ bucket, ¬ isSrcB cad pcb x :=
      List.find?_eq_none.mp hfind
    have herase :
        (bucket.filter (isClsB cad pcb)).eraseP (isSrcB cad pcb) =
          bucket.filter (isClsB cad pcb) := by
      apply List.eraseP_of_forall_not
      intro a ha
      exact hnone a (List.mem_of_mem_filter ha)
    rcases hcls : bucket.filter (isClsB cad pcb) with _ | ⟨e, es⟩
    · rw [hcls] at herase
      simp [Part.empty, expAfter_eq_eraseP, hfind, herase, hcls]
    · rw [hcls] at herase
      simp [Part.empty, expAfter_eq_eraseP, hfind, herase, hcls]
  · simp [Part.empty, expAfter_eq_eraseP, hfind]

/-! ### Concrete instances used by examples, witnesses and counterexamples -/

/-- The naive sentinel datetime `1970-01-01 00:00:00` (no timezone). -/
def epochNaive : PyDateTime := ⟨1970, 1, 1, 0, 0, 0, 0, none⟩

/-- The timezone-aware UTC epoch instant `1970-01-01T00:00:00Z`. -/
def utcEpochZ : PyDateTime := ⟨1970, 1, 1, 0, 0, 0, 0, some 0⟩

/-- Modelled from the spec: a CAD Format Registry fragment
(krawl/file_formats.py is not under src/), with STEP a `source` format and
STL an `export` format as in the spec's worked example. -/
def cadFormats0 : List (String × String) := [(".step", "source"), (".stl", "export")]

/-- Modelled from the spec: a PCB Format Registry fragment. -/
def pcbFormats0 : List (String × String) := [(".kicad_pcb", "source")]

/-- Modelled from the spec: an image Format Registry fragment (the
classifier ignores the category of image formats). -/
def imageFormats0 : List (String × String) := [(".png", "export"), (".jpg", "export")]

/-- A canonical File for a given relative path, with fixed provenance
fields, as the examples need. -/
def mkTestFile (p : String) : File :=
  { path := some (fpathOf p), name := some (pathStem (fpathOf p)),
    mime_type := .pynone, url := .pynone, perma_url := .pynone,
    created_at := epochNaive, last_changed := epochNaive,
    last_visited := epochNaive, license := some ⟨"CERN-OHL-1.2"⟩,
    licensor := .pystr "arturo182" }

/-- A stand-in for `langdetect.detect` that always detects English. -/
def detect0 : String → Except Unit String := fun _ => .ok "en"

/-- A stand-in for `strip_html` that leaves the text unchanged. -/
def strip0 : String → String := fun s => s

/-- A stand-in for `datetime.strptime(_, "%Y-%m-%dT%H:%M:%S.%f%z")` that
accepts every string. -/
def strptime0 : String → Except PyErr PyDateTime := fun _ => .ok epochNaive

/-- A stand-in for `datetime.now(timezone.utc)`. -/
def now0 : PyDateTime := epochNaive

/-- The structural part list of a normalization result (`none` when the
call raised). -/
def projPartList : Except PyErr Project → Option (List Part)
  | .ok p => some p.part
  | .error _ => none

/-- A raw OSHWA record carrying one contribution file `A.stl` (an
`export`-category CAD format), as the Part Classifier would bucket it. -/
def recOneFile : List (String × PyVal) :=
  [("fetcher", .pystr "oshwa"), ("responsibleParty", .pystr "arturo182"),
   ("lastVisited", .pystr "2021-06-01"), ("projectName", .pystr "Demo"),
   ("documentationUrl", .pystr "https://example.com/demo"),
   ("contribution", .pydict
     [("files", .pylist
       [.pydict
         [("dirname", .pystr ""),
          ("file", .pydict
            [("filename", .pystr "A.stl"),
             ("dateCreated", .pystr "2020-05-04T00:00:00.000000+00:00"),
             ("lastUpdated", .pystr "2020-05-04T00:00:00.000000+00:00")])]])])]

/-- A complete raw OSHWA record exercising every optional field. -/
def recFull : List (String × PyVal) :=
  [("fetcher", .pystr "oshwa"), ("responsibleParty", .pystr "arturo182"),
   ("lastVisited", .pystr "2021-06-01"),
   ("projectName", .pystr "0.95in OLED PMOD"),
   ("oshwaUid", .pystr "SE000004"),
   ("certificationDate", .pystr "2020-05-04T00:00-04:00"),
   ("hardwareLicense", .pystr "CERN"),
   ("projectDescription", .pystr "A tiny color OLED!"),
   ("primaryType", .pystr "Other"),
   ("additionalType", .pylist [.pystr "Electronics"]),
   ("projectVersion", .pystr "1.0")]

/-! ### Theorems for claim C1 -/

/-- Claim C1: for every bucket of Files (and every CAD/PCB/image registry),
the per-bucket classification of `_normalize_parts` assigns a
`source`-category file as the Part's source only when the source is still
unset and appends it to export otherwise, appends `export`-category files
to export in original list order, promotes the first export entry to
source when no source was found, and emits a Part exactly when the source
is non-null, with name, license and licensor copied from that source
(`classifyBucket = specClassify`); and on the bucket
`{A.step (CAD source), A.stl (CAD export), A.png (image)}` the emitted
Part has `source = A.step`, `export = [A.stl]`, `image = A.png`. -/
theorem claim1_part_classification :
    (∀ (cad pcb img : List (String × String)) (bucket : List File),
       classifyBucket cad pcb img bucket = specClassify cad pcb img bucket) ∧
    normalizeParts cadFormats0 pcbFormats0 imageFormats0
        [mkTestFile "A.step", mkTestFile "A.stl", mkTestFile "A.png"] =
      .ok [{ name := some "A", license := some ⟨"CERN-OHL-1.2"⟩,
             licensor := .pystr "arturo182",
             source := some (mkTestFile "A.step"),
             exports := [mkTestFile "A.stl"],
             image := some (mkTestFile "A.png") }] :=
  ⟨classifyBucket_eq_spec, rfl⟩

/-! ### Claim C2: exclusion filter and bucketing -/

/-- Whether the exclusion filter drops the file: its path stem with spaces
and hyphens replaced by underscores, upper-cased, is an administrative
name (total variant; the code raises on a path-less file). -/
def excludedB (f : File) : Bool :=
  match f.path with
  | some p =>
      EXCLUDE_FILES.contains
        (strUpper (strReplaceChar '-' '_' (strReplaceChar ' ' '_' (pathStem p))))
  | none => false

/-- On files with paths, the exclusion loop succeeds and keeps exactly the
files whose normalized stem is not an administrative name. -/
lemma filterExcluded_ok (files : List File)
    (h : ∀ f ∈ files, f.path.isSome) :
    filterExcluded files = .ok (files.filter (fun f => !excludedB f)) := by
  induction files with
  | nil => simp [filterExcluded]
  | cons f fs ih =>
      have hf : f.path.isSome := h f (by simp)
      rcases hp : f.path with _ | p
      · rw [hp] at hf; simp at hf
      · have ih' := ih (fun g hg => h g (List.mem_cons_of_mem _ hg))
        by_cases hex :
            strUpper (strReplaceChar '-' '_'
              (strReplaceChar ' ' '_' (pathStem p))) ∈ EXCLUDE_FILES <;>
          simp [filterExcluded, normalizedExclusionName, hp, ih', excludedB,
            hex, List.filter_cons]

/-- On files with paths the bucketing loop of the code succeeds, yielding
the pure bucketing. -/
lemma bucketsGo_ok (files : List File)
    (h : ∀ f ∈ files, f.path.isSome) :
    ∀ acc, bucketsGo acc files =
      .ok (files.foldl (fun a f => insertBucket a (bucketKeyD f) f) acc) := by
  induction files with
  | nil => intro acc; simp [bucketsGo]
  | cons f fs ih =>
      intro acc
      have hf : f.path.isSome := h f (by simp)
      rcases hp : f.path with _ | p
      · rw [hp] at hf; simp at hf
      · have ih' := ih (fun g hg => h g (List.mem_cons_of_mem _ hg))
        simp [bucketsGo, bucketKeyE, bucketKeyD, hp, ih']

/-- The `bucketsOfE` agrees with the pure bucketing on files with paths. -/
lemma bucketsOfE_ok (files : List File)
    (h : ∀ f ∈ files, f.path.isSome) :
    bucketsOfE files = .ok (bucketsOf files) := by
  simpa [bucketsOfE, bucketsOf] using bucketsGo_ok files h []

/-- Inserting a file into a bucket list only extends the bucket with its
key. -/
lemma bucketGet_insertBucket (k0 : String) (f0 : File) :
    ∀ (acc : List (String × List File)) (k : String),
      bucketGet (insertBucket acc k0 f0) k =
        if k = k0 then bucketGet acc k ++ [f0] else bucketGet acc k := by
  intro acc
  induction acc with
  | nil =>
      intro k
      by_cases hk : k = k0
      · subst hk; simp [insertBucket, bucketGet]
      · have hk' : ¬ k0 = k := fun hh => hk hh.symm
        simp [insertBucket, bucketGet, hk, hk']
  | cons kv rest ih =>
      intro k
      obtain ⟨k1, l⟩ := kv
      by_cases h1 : k1 = k0
      · subst h1
        by_cases hk : k1 = k
        · subst hk; simp [insertBucket, bucketGet]
        · have hk' : ¬ k = k1 := fun hh => hk hh.symm
          simp [insertBucket, bucketGet, hk, hk']
      · by_cases hk1 : k1 = k
        · subst hk1
          have hkk0 : ¬ k1 = k0 := h1
          simp [insertBucket, bucketGet, hkk0, h1]
        · simp [insertBucket, bucketGet, h1, hk1, ih]

/-- Membership in the buckets built by the fold. -/
lemma mem_bucketGet_foldl :
    ∀ (l : List File) (acc : List (String × List File)) (f : File)
      (k : String),
      f ∈ bucketGet (l.foldl (fun a g => insertBucket a (bucketKeyD g) g) acc) k ↔
        f ∈ bucketGet acc k ∨ (f ∈ l ∧ bucketKeyD f = k) := by
  intro l
  induction l with
  | nil => intro acc f k; simp
  | cons g l ih =>
      intro acc f k
      rw [List.foldl_cons, ih]
      rw [bucketGet_insertBucket]
      by_cases hk : k = bucketKeyD g
      · rw [if_pos hk]
        constructor
        · rintro (hmem | ⟨hl, hkey⟩)
          · rcases List.mem_append.mp hmem with hacc | hg
            · exact Or.inl hacc
            · have hfg : f = g := List.mem_singleton.mp hg
              subst hfg
              exact Or.inr ⟨List.mem_cons_self _ _, hk.symm⟩
          · exact Or.inr ⟨List.mem_cons_of_mem _ hl, hkey⟩
        · rintro (hacc | ⟨hfl, hkey⟩)
          · exact Or.inl (List.mem_append.mpr (Or.inl hacc))
          · rcases List.mem_cons.mp hfl with hfg | hl
            · subst hfg
              exact Or.inl (List.mem_append.mpr
                (Or.inr (List.mem_singleton.mpr rfl)))
            · exact Or.inr ⟨hl, hkey⟩
      · rw [if_neg hk]
        constructor
        · rintro (hacc | ⟨hl, hkey⟩)
          · exact Or.inl hacc
          · exact Or.inr ⟨List.mem_cons_of_mem _ hl, hkey⟩
        · rintro (hacc | ⟨hfl, hkey⟩)
          · exact Or.inl hacc
          · rcases List.mem_cons.mp hfl with hfg | hl
            · subst hfg; exact absurd hkey.symm hk
            · exact Or.inr ⟨hl, hkey⟩

/-- A file sits in exactly the bucket keyed by its stripped lower-cased
path. -/
lemma mem_bucketsOf (l : List File) (f : File) (k : String) :
    f ∈ bucketGet (bucketsOf l) k ↔ f ∈ l ∧ bucketKeyD f = k := by
  simpa [bucketsOf, bucketGet] using mem_bucketGet_foldl l [] f k

/-- Claim C2: over any list of Files with paths, the exclusion loop drops a
file exactly when its normalized stem (spaces and hyphens to underscores,
upper-cased) is in the administrative name set; every surviving file lands
in the bucket keyed by its path with the last extension stripped,
lower-cased — membership in a bucket of key `k` holds iff the file
survived and its key is `k` — and `a.STEP`, `a.stl`, `a.step` share one
bucket key. -/
theorem claim2_exclusion_and_bucketing (files : List File)
    (h : ∀ f ∈ files, f.path.isSome) :
    filterExcluded files = .ok (files.filter (fun f => !excludedB f)) ∧
    bucketsOfE (files.filter (fun f => !excludedB f)) =
      .ok (bucketsOf (files.filter (fun f => !excludedB f))) ∧
    (∀ f k,
      f ∈ bucketGet (bucketsOf (files.filter (fun f => !excludedB f))) k ↔
        (f ∈ files ∧ excludedB f = false ∧ bucketKeyD f = k)) ∧
    (bucketKeyD (mkTestFile "a.STEP") = bucketKeyD (mkTestFile "a.stl") ∧
     bucketKeyD (mkTestFile "a.stl") = bucketKeyD (mkTestFile "a.step")) := by
  refine ⟨filterExcluded_ok files h, ?_, ?_, rfl, rfl⟩
  · exact bucketsOfE_ok _ (fun f hf => h f (List.mem_of_mem_filter hf))
  · intro f k
    rw [mem_bucketsOf, List.mem_filter]
    constructor
    · rintro ⟨⟨hmem, hkeep⟩, hkey⟩
      exact ⟨hmem, by simpa using hkeep, hkey⟩
    · rintro ⟨hmem, hex, hkey⟩
      exact ⟨⟨hmem, by simp [hex]⟩, hkey⟩

/-- Witness for C2 at a concrete file list. -/
theorem claim2_witness :
    (∀ f ∈ [mkTestFile "a.STEP", mkTestFile "README.md"], f.path.isSome) ∧
    (filterExcluded [mkTestFile "a.STEP", mkTestFile "README.md"] =
      .ok ([mkTestFile "a.STEP", mkTestFile "README.md"].filter
        (fun f => !excludedB f)) ∧
     bucketsOfE ([mkTestFile "a.STEP", mkTestFile "README.md"].filter
        (fun f => !excludedB f)) =
      .ok (bucketsOf ([mkTestFile "a.STEP", mkTestFile "README.md"].filter
        (fun f => !excludedB f))) ∧
     (∀ f k,
       f ∈ bucketGet (bucketsOf ([mkTestFile "a.STEP", mkTestFile "README.md"].filter
          (fun f => !excludedB f))) k ↔
         (f ∈ [mkTestFile "a.STEP", mkTestFile "README.md"] ∧
          excludedB f = false ∧ bucketKeyD f = k)) ∧
     (bucketKeyD (mkTestFile "a.STEP") = bucketKeyD (mkTestFile "a.stl") ∧
      bucketKeyD (mkTestFile "a.stl") = bucketKeyD (mkTestFile "a.step"))) := by
  have hpaths : ∀ f ∈ [mkTestFile "a.STEP", mkTestFile "README.md"],
      f.path.isSome := by
    intro f hf
    rcases List.mem_cons.mp hf with h1 | h2
    · rw [h1]; rfl
    · rw [List.mem_singleton.mp h2]; rfl
  exact ⟨hpaths, claim2_exclusion_and_bucketing _ hpaths⟩

/-! ### Theorems for claim C5 (Field Extractor) -/

/-- Claim C5 counterexample: the claim says `_get_key` returns the default —
without raising — whenever a value along the path is not traversable as a
mapping; but on the tree `{"a": "xyz"}` with keys `["a", "y"]` the truthy
non-mapping value `"xyz"` passes the membership test (`"y" in "xyz"` is a
substring test) and is then indexed, raising `TypeError` instead of
returning the default. -/
theorem claim5_counterexample :
    getKey (.pydict [("a", .pystr "xyz")]) ["a", "y"] .pynone =
      .error (.typeError "string indices must be integers") := rfl

/-- Claim C5, amended: `_get_key` returns the value reached by walking the
keys and returns the default whenever a value along the path is missing or
falsy — and also for a truthy non-mapping that fails the Python membership
test — but the no-raise guarantee only holds on walks (`safeWalk`) that
never index a truthy non-mapping: there it raises `TypeError` instead of
returning the default. -/
theorem claim5_field_extractor (obj : PyVal) (keys : List String)
    (default : PyVal) (h : safeWalk obj keys = true) :
    getKey obj keys default = .ok (pureWalk default obj keys) := by
  induction keys generalizing obj with
  | nil => cases htr : pyTruthy obj <;> simp [getKey, pureWalk, htr]
  | cons k ks ih =>
      by_cases htr : pyTruthy obj
      · cases obj with
        | pydict es =>
            rcases hd : dictGet es k with _ | w
            · simp [getKey, pureWalk, pyContains, htr, hd]
            · have hw : safeWalk w ks = true := by
                simpa [safeWalk, htr, hd] using h
              simp [getKey, pureWalk, pyContains, pyGetItem, htr, hd, ih w hw]
          | pystr s =>
            have hc : containsSub k s = false := by
              simpa [safeWalk, htr] using h
            simp [getKey, pureWalk, pyContains, htr, hc]
        | pylist xs =>
            have hc : (xs.any (fun x => match x with
                | .pystr s => s = k | _ => false)) = false := by
              simpa [safeWalk, htr] using h
            simp [getKey, pureWalk, pyContains, htr, hc]
        | pynone => simp [pyTruthy] at htr
        | pybool b => simp [safeWalk, htr] at h
        | pyint n => simp [safeWalk, htr] at h
        | pylicense l => simp [safeWalk, htr] at h
      · simp [getKey, pureWalk, htr]

/-- Witness for C5 on a two-level mapping tree. -/
theorem claim5_witness :
    safeWalk (.pydict [("a", .pydict [("b", .pystr "v")])]) ["a", "b"] = true ∧
    getKey (.pydict [("a", .pydict [("b", .pystr "v")])]) ["a", "b"] .pynone =
      .ok (pureWalk .pynone
        (.pydict [("a", .pydict [("b", .pystr "v")])]) ["a", "b"]) :=
  ⟨rfl, claim5_field_extractor _ _ _ rfl⟩

/-! ### Theorems for claim C6 (created_at sentinel) -/

/-- The sentinel expression of `_normalize_created_at` evaluates to the
naive epoch. -/
lemma sentinel_eval : fromisoformat "1970-01-01 00:00:00" = .ok epochNaive := rfl

/-- The `String.isEmpty` characterizes the empty string. -/
lemma strIsEmpty_true_iff (s : String) : s.isEmpty = true ↔ s = "" := by
  constructor
  · intro h
    cases s with
    | mk data =>
        cases data with
        | nil => rfl
        | cons c cs =>
            simp [String.isEmpty, String.endPos, String.utf8ByteSize] at h
            have hc := c.utf8Size_pos
            have hz : String.utf8Len cs + c.utf8Size = 0 :=
              congrArg String.Pos.byteIdx h
            omega
  · intro h; rw [h]; rfl

/-- A non-empty string literal is not `isEmpty`. -/
lemma strIsEmpty_false_of_ne (s : String) (h : s ≠ "") : s.isEmpty = false := by
  cases hx : s.isEmpty
  · rfl
  · exact absurd ((strIsEmpty_true_iff s).mp hx) h

/-- A non-empty string is truthy. -/
lemma pyTruthy_pystr_true (s : String) (h : s ≠ "") :
    pyTruthy (.pystr s) = true := by
  simp [pyTruthy, strIsEmpty_false_of_ne s h]

/-- Claim C6 counterexample: on a record without `certificationDate` the code
produces `datetime.fromisoformat("1970-01-01 00:00:00")`, a NAIVE datetime
(no timezone), which is not the timezone-aware UTC epoch instant
`1970-01-01T00:00:00Z` the claim states. -/
theorem claim6_counterexample :
    normalizeCreatedAt [] = .ok epochNaive ∧ epochNaive ≠ utcEpochZ :=
  ⟨rfl, by decide⟩

/-- Claim C6, amended: when `certificationDate` is present and non-empty,
`created_at` is `datetime.fromisoformat` of it; otherwise it is the NAIVE
datetime `1970-01-01 00:00:00` (no timezone attached), an explicit
sentinel, and never null. -/
theorem claim6_created_at (raw : List (String × PyVal)) :
    (¬ pyTruthy (rawGet raw "certificationDate") →
       normalizeCreatedAt raw = .ok epochNaive) ∧
    (∀ s, rawGet raw "certificationDate" = .pystr s → s ≠ "" →
       normalizeCreatedAt raw = fromisoformat s) := by
  constructor
  · intro h
    unfold normalizeCreatedAt
    rcases hv : rawGet raw "certificationDate" with _ | b | n | s | xs | es | l <;>
      rw [hv] at h
    case pystr =>
      have hs : s = "" := by
        by_cases hemp : s = ""
        · exact hemp
        · exact absurd (pyTruthy_pystr_true s hemp) h
      rw [hs]
      simp [sentinel_eval]
    all_goals
      simp [pyTruthy] at h ⊢ ; simp [h, sentinel_eval]
  · intro s hv hs
    unfold normalizeCreatedAt
    rw [hv]
    simp [hs]

/-- Witness for C6 at the full record. -/
theorem claim6_witness :
    rawGet recFull "certificationDate" = .pystr "2020-05-04T00:00-04:00" ∧
    normalizeCreatedAt recFull = fromisoformat "2020-05-04T00:00-04:00" :=
  ⟨rfl, (claim6_created_at recFull).2 "2020-05-04T00:00-04:00" rfl (by decide)⟩

/-! ### Theorems for claim C7 (license fallbacks) -/

/-- The `_get_key` on a single key over the raw dict never raises: it yields
the stored value when truthy and the default otherwise. -/
lemma getKey_single_dict (es : List (String × PyVal)) (k : String)
    (d : PyVal) :
    getKey (.pydict es) [k] d =
      .ok (if pyTruthy (rawGet es k) then rawGet es k else d) := by
  by_cases htr : pyTruthy (.pydict es)
  · rcases hd : dictGet es k with _ | v
    · simp [getKey, pyContains, htr, hd, rawGet, pyTruthy]
    · cases hv : pyTruthy v <;>
        simp [getKey, pyContains, pyGetItem, htr, hd, rawGet, hv]
  · have hes : es = [] := by
      cases es with
      | nil => rfl
      | cons e es => simp [pyTruthy] at htr
    subst hes
    simp [getKey, htr, dictGet, rawGet, pyTruthy]

/-- Claim C7: license resolution yields null — not an error, not a default,
not the raw string — whenever `hardwareLicense` is absent or falsy, is the
label `"None"` or `"Other"`, or is any label missing from the static
mapping table. -/
theorem claim7_license_null (raw : List (String × PyVal)) :
    (¬ pyTruthy (rawGet raw "hardwareLicense") →
       normalizeLicense raw = .ok none) ∧
    (rawGet raw "hardwareLicense" = .pystr "None" →
       normalizeLicense raw = .ok none) ∧
    (rawGet raw "hardwareLicense" = .pystr "Other" →
       normalizeLicense raw = .ok none) ∧
    (∀ s, rawGet raw "hardwareLicense" = .pystr s →
       tableGet LICENSE_MAPPING s = none → normalizeLicense raw = .ok none) := by
  have hg := getKey_single_dict raw "hardwareLicense" .pynone
  refine ⟨?_, ?_, ?_, ?_⟩
  · intro h
    have hb : pyTruthy (rawGet raw "hardwareLicense") = false := by
      cases hx : pyTruthy (rawGet raw "hardwareLicense")
      · rfl
      · exact absurd hx h
    unfold normalizeLicense
    rw [hg, hb]
    rfl
  · intro h
    unfold normalizeLicense
    rw [hg, h]
    rfl
  · intro h
    unfold normalizeLicense
    rw [hg, h]
    rfl
  · intro s hs hmap
    unfold normalizeLicense
    rw [hg, hs]
    by_cases hemp : s = ""
    · rw [hemp]; rfl
    · rw [pyTruthy_pystr_true s hemp]
      by_cases hno : s = "None" ∨ s = "Other" <;>
        simp [hno, hmap, getByIdOrName]

/-- Witness for C7 at an unmapped label. -/
theorem claim7_witness :
    tableGet LICENSE_MAPPING "WTFPL" = none ∧
    normalizeLicense [("hardwareLicense", .pystr "WTFPL")] = .ok none :=
  ⟨rfl, (claim7_license_null _).2.2.2 "WTFPL" rfl rfl⟩

/-! ### Theorems for claim C8 (category code mapper) -/

/-- Claim C8: with an unmappable `primaryType` the mapper returns
`additionalType` verbatim, or `""` when it is absent or empty; otherwise a
`primaryType` found in the primary-to-taxonomy table maps to its code
(`"Electronics"` to `"H"`) and any other `primaryType` passes through
unchanged. -/
theorem claim8_classification (raw : List (String × PyVal)) :
    (∀ s, rawGet raw "primaryType" = .pystr s → s ∈ unmappableCategories →
       ((rawGet raw "additionalType" = .pynone →
           normalizeClassification raw = .ok (.pystr "")) ∧
        (rawGet raw "additionalType" = .pylist [] →
           normalizeClassification raw = .ok (.pystr "")) ∧
        (∀ x xs, rawGet raw "additionalType" = .pylist (x :: xs) →
           normalizeClassification raw = .ok (.pylist (x :: xs))))) ∧
    (∀ s, rawGet raw "primaryType" = .pystr s → s ∉ unmappableCategories →
       ((∀ c, tableGet mappingPrimaryToCpc s = some c →
           normalizeClassification raw = .ok (.pystr c)) ∧
        (tableGet mappingPrimaryToCpc s = none →
           normalizeClassification raw = .ok (.pystr s)))) ∧
    normalizeClassification [("primaryType", .pystr "Electronics")] =
      .ok (.pystr "H") ∧
    normalizeClassification
        [("primaryType", .pystr "Other"), ("additionalType", .pylist [])] =
      .ok (.pystr "") := by
  refine ⟨?_, ?_, rfl, rfl⟩
  · intro s hs hmem
    have hcont : unmappableCategories.contains s = true := by
      simpa using hmem
    refine ⟨?_, ?_, ?_⟩
    · intro ha
      unfold normalizeClassification
      rw [hs, ha]
      simp [hcont, hmem]
    · intro ha
      unfold normalizeClassification
      rw [hs, ha]
      simp [hcont, hmem]
    · intro x xs ha
      unfold normalizeClassification
      rw [hs, ha]
      simp [hcont, hmem]
  · intro s hs hmem
    have hcont : unmappableCategories.contains s = false := by
      simpa using hmem
    constructor
    · intro c hc
      unfold normalizeClassification
      rw [hs]
      simp [hcont, hmem, hc]
    · intro hc
      unfold normalizeClassification
      rw [hs]
      simp [hcont, hmem, hc]

/-- Witness for C8 at `primaryType = "Electronics"`. -/
theorem claim8_witness :
    rawGet [("primaryType", .pystr "Electronics")] "primaryType" =
      .pystr "Electronics" ∧
    normalizeClassification [("primaryType", .pystr "Electronics")] =
      .ok (.pystr "H") :=
  ⟨rfl, ((claim8_classification [("primaryType", PyVal.pystr "Electronics")]).2.1
    "Electronics" rfl (by decide)).1 "H" rfl⟩

/-! ### Theorems for claim C9 (language detector fallback) -/

/-- Claim C9: the language detector is total and never null: empty text,
a raised detection exception and an explicit `"unknown"` result all yield
`"en"`, and any other detected code is returned as is. -/
theorem claim9_language (detect : String → Except Unit String)
    (description : String) :
    (description = "" → normalizeLanguage detect description = "en") ∧
    (detect description = .error () →
       normalizeLanguage detect description = "en") ∧
    (detect description = .ok "unknown" →
       normalizeLanguage detect description = "en") ∧
    (∀ l, description ≠ "" → detect description = .ok l → l ≠ "unknown" →
       normalizeLanguage detect description = l) := by
  refine ⟨?_, ?_, ?_, ?_⟩
  · intro h
    simp [normalizeLanguage, h]
  · intro h
    by_cases hd : description = "" <;> simp [normalizeLanguage, hd, h]
  · intro h
    by_cases hd : description = "" <;> simp [normalizeLanguage, hd, h]
  · intro l hd h hl
    simp [normalizeLanguage, hd, h, hl]

/-- A stand-in for `langdetect.detect` that always raises
`LangDetectException`. -/
def detectFail : String → Except Unit String := fun _ => .error ()

/-- Witness for C9 at a failing detection. -/
theorem claim9_witness :
    detectFail "bonjour" = .error () ∧
    normalizeLanguage detectFail "bonjour" = "en" :=
  ⟨rfl, (claim9_language detectFail "bonjour").2.1 rfl⟩

/-! ### Theorems for claim C3 (normalize failure policy) -/

/-- The value is a Python string. -/
def isStrB : PyVal → Bool
  | .pystr _ => true
  | _ => false

/-- The value is hashable (usable as a dict key / in a `dict.get`). -/
def hashableB : PyVal → Bool
  | .pylist _ => false
  | .pydict _ => false
  | _ => true

/-- The value supports `len()`. -/
def lenOkB : PyVal → Bool
  | .pystr _ => true
  | .pylist _ => true
  | .pydict _ => true
  | _ => false

/-- Claim C3 counterexample: the empty record is a well-formed key-value
tree, yet `normalize` raises `KeyError("fetcher")` — a failure that is not
a deserialization error — instead of returning a Project. -/
theorem claim3_counterexample :
    normalize detect0 strip0 [] = .error (.keyError "fetcher") ∧
    isDeserializerErr (normalize detect0 strip0 []) = false :=
  ⟨rfl, rfl⟩

/-- The `_normalize_repo` succeeds when a truthy documentation URL or an
`oshwaUid` is present. -/
lemma normalizeRepo_ok (raw : List (String × PyVal))
    (h : pyTruthy (rawGet raw "documentationUrl") = true ∨
         (dictGet raw "oshwaUid").isSome = true) :
    ∃ v, normalizeRepo raw = .ok v := by
  by_cases hd : pyTruthy (rawGet raw "documentationUrl")
  · exact ⟨rawGet raw "documentationUrl", by unfold normalizeRepo; rw [if_pos hd]⟩
  · rcases ho : dictGet raw "oshwaUid" with _ | u
    · rcases h with h | h
      · exact absurd h hd
      · rw [ho] at h; simp at h
    · refine ⟨.pystr ("https://certification.oshwa.org/" ++ pyStrOf u ++ ".html"), ?_⟩
      unfold normalizeRepo
      rw [if_neg hd, ho]

/-- The `_normalize_created_at` never raises on a falsy `certificationDate`. -/
lemma createdAt_of_falsy (raw : List (String × PyVal))
    (h : ¬ pyTruthy (rawGet raw "certificationDate")) :
    normalizeCreatedAt raw = .ok epochNaive := by
  unfold normalizeCreatedAt
  rcases hv : rawGet raw "certificationDate" with _ | b | n | s | xs | es | l <;>
    rw [hv] at h
  case pystr =>
    have hs : s = "" := by
      by_cases hemp : s = ""
      · exact hemp
      · exact absurd (pyTruthy_pystr_true s hemp) h
    rw [hs]
    simp [sentinel_eval]
  all_goals
    simp [pyTruthy] at h ⊢ ; simp [h, sentinel_eval]

/-- The `_normalize_created_at` on a truthy string field is just
`fromisoformat`. -/
lemma createdAt_of_str (raw : List (String × PyVal)) (s : String)
    (hv : rawGet raw "certificationDate" = .pystr s) (hs : s ≠ "") :
    normalizeCreatedAt raw = fromisoformat s := by
  unfold normalizeCreatedAt
  rw [hv]
  simp [hs]

/-- The `_normalize_created_at` succeeds when the field is falsy or a parseable
string. -/
lemma normalizeCreatedAt_ok (raw : List (String × PyVal))
    (h : ¬ pyTruthy (rawGet raw "certificationDate") ∨
         ∃ s d, rawGet raw "certificationDate" = .pystr s ∧
           fromisoformat s = .ok d) :
    ∃ v, normalizeCreatedAt raw = .ok v := by
  rcases h with h | ⟨s, d, hv, hp⟩
  · exact ⟨epochNaive, createdAt_of_falsy raw h⟩
  · by_cases hs : s = ""
    · refine ⟨epochNaive, createdAt_of_falsy raw ?_⟩
      rw [hv, hs]
      decide
    · exact ⟨d, by rw [createdAt_of_str raw s hv hs]; exact hp⟩

/-- The version lookup plus `urllib.parse.quote` succeeds when
`projectVersion` is absent, falsy, or a string. -/
lemma version_ok (raw : List (String × PyVal))
    (h : ∀ v, dictGet raw "projectVersion" = some v → pyTruthy v → isStrB v) :
    ∃ w x, getKey (.pydict raw) ["projectVersion"] (.pystr "0.1.0") = .ok w ∧
      urlquote w = .ok x := by
  rw [getKey_single_dict]
  by_cases htr : pyTruthy (rawGet raw "projectVersion")
  · rcases hd : dictGet raw "projectVersion" with _ | v
    · have hvv : rawGet raw "projectVersion" = .pynone := by
        unfold rawGet; rw [hd]; rfl
      rw [hvv] at htr; simp [pyTruthy] at htr
    · have hvv : rawGet raw "projectVersion" = v := by
        unfold rawGet; rw [hd]; rfl
      have hstr := h v hd (by rw [← hvv]; exact htr)
      cases v with
      | pystr s =>
          refine ⟨rawGet raw "projectVersion", urlquoteStr s, ?_, ?_⟩
          · rw [if_pos htr]
          · rw [hvv]
            rfl
      | pynone => simp [isStrB] at hstr
      | pybool b => simp [isStrB] at hstr
      | pyint n => simp [isStrB] at hstr
      | pylist xs => simp [isStrB] at hstr
      | pydict es => simp [isStrB] at hstr
      | pylicense l => simp [isStrB] at hstr
  · refine ⟨.pystr "0.1.0", urlquoteStr "0.1.0", ?_, rfl⟩
    rw [if_neg htr]

/-- The `_normalize_license` succeeds when a present truthy `hardwareLicense`
is a string. -/
lemma normalizeLicense_ok (raw : List (String × PyVal))
    (h : ∀ v, dictGet raw "hardwareLicense" = some v → pyTruthy v → isStrB v) :
    ∃ x, normalizeLicense raw = .ok x := by
  unfold normalizeLicense
  rw [getKey_single_dict]
  by_cases htr : pyTruthy (rawGet raw "hardwareLicense")
  · rcases hd : dictGet raw "hardwareLicense" with _ | v
    · have hvv : rawGet raw "hardwareLicense" = .pynone := by
        unfold rawGet; rw [hd]; rfl
      rw [hvv] at htr; simp [pyTruthy] at htr
    · have hvv : rawGet raw "hardwareLicense" = v := by
        unfold rawGet; rw [hd]; rfl
      have hstr := h v hd (by rw [← hvv]; exact htr)
      cases v with
      | pystr s =>
          have htr' : pyTruthy (.pystr s) = true := by rw [← hvv]; exact htr
          rw [if_pos htr, hvv]
          by_cases hno : s = "None" ∨ s = "Other" <;> simp [htr', hno]
      | pynone => simp [isStrB] at hstr
      | pybool b => simp [isStrB] at hstr
      | pyint n => simp [isStrB] at hstr
      | pylist xs => simp [isStrB] at hstr
      | pydict es => simp [isStrB] at hstr
      | pylicense l => simp [isStrB] at hstr
  · rw [if_neg htr]
    exact ⟨none, rfl⟩

/-- The `_normalize_function` succeeds when a present truthy
`projectDescription` is a string. -/
lemma normalizeFunction_ok (stripHtml : String → String)
    (raw : List (String × PyVal))
    (h : ∀ v, dictGet raw "projectDescription" = some v → pyTruthy v → isStrB v) :
    ∃ x, normalizeFunction stripHtml raw = .ok x := by
  unfold normalizeFunction
  rcases hd : dictGet raw "projectDescription" with _ | v
  · have hvv : rawGet raw "projectDescription" = .pynone := by
      unfold rawGet; rw [hd]; rfl
    rw [hvv]
    exact ⟨"", rfl⟩
  · have hvv : rawGet raw "projectDescription" = v := by
      unfold rawGet; rw [hd]; rfl
    rw [hvv]
    cases v with
    | pystr s => by_cases hs : s = "" <;> simp [hs]
    | pynone => exact ⟨"", rfl⟩
    | pybool b =>
        cases b with
        | false => exact ⟨"", rfl⟩
        | true =>
            have := h _ hd (by simp [pyTruthy])
            simp [isStrB] at this
    | pyint n =>
        by_cases hn : n = 0
        · subst hn; exact ⟨"", rfl⟩
        · have := h _ hd (by simp [pyTruthy, hn])
          simp [isStrB] at this
    | pylist xs =>
        cases xs with
        | nil => exact ⟨"", rfl⟩
        | cons x xs =>
            have := h _ hd (by simp [pyTruthy])
            simp [isStrB] at this
    | pydict es =>
        cases es with
        | nil => exact ⟨"", rfl⟩
        | cons e es =>
            have := h _ hd (by simp [pyTruthy])
            simp [isStrB] at this
    | pylicense l =>
        cases l with
        | none => exact ⟨"", rfl⟩
        | some lv =>
            have := h _ hd (by simp [pyTruthy])
            simp [isStrB] at this

/-- The `_normalize_classification` succeeds when `primaryType` is hashable
and, if `primaryType` is an unmappable category, `additionalType` is
absent or supports `len()`. -/
lemma normalizeClassification_ok (raw : List (String × PyVal))
    (h1 : hashableB (rawGet raw "primaryType"))
    (h2 : ∀ s, rawGet raw "primaryType" = .pystr s →
          s ∈ unmappableCategories →
          (lenOkB (rawGet raw "additionalType") ∨
           rawGet raw "additionalType" = .pynone)) :
    ∃ x, normalizeClassification raw = .ok x := by
  unfold normalizeClassification
  rcases hp : rawGet raw "primaryType" with _ | b | n | s | xs | es | l
  · exact ⟨_, rfl⟩
  · exact ⟨_, rfl⟩
  · exact ⟨_, rfl⟩
  · by_cases hm : unmappableCategories.contains s
    · rw [if_pos (by simpa using hm)]
      have hmem : s ∈ unmappableCategories := by simpa using hm
      rcases h2 s hp hmem with hlen | hnone
      · rcases ha : rawGet raw "additionalType" with _ | b | n | t | ys | fs | l <;>
          rw [ha] at hlen <;> simp [lenOkB] at hlen <;> simp [ha]
        · by_cases ht : t.length = 0 <;> simp [ht]
        · by_cases hy : ys.length = 0 <;> simp [hy]
        · by_cases hf : fs.length = 0 <;> simp [hf]
      · rw [hnone]
        exact ⟨_, rfl⟩
    · rw [if_neg (by simpa using hm)]
      rcases htg : tableGet mappingPrimaryToCpc s with _ | c
      · exact ⟨.pystr s, by simp [htg]⟩
      · exact ⟨.pystr c, by simp [htg]⟩
  · rw [hp] at h1; simp [hashableB] at h1
  · rw [hp] at h1; simp [hashableB] at h1
  · exact ⟨_, rfl⟩

/-- Claim C3, amended: `normalize` returns a Project without raising for
every record in which the fields the code indexes directly are present
(`fetcher`, `responsibleParty`, `lastVisited`, `projectName`, and
`oshwaUid` unless a truthy `documentationUrl` exists), the
`certificationDate` is absent, falsy or a parseable ISO string, and the
present optional fields have the provider's types; all other optional
fields are resolved to defaults.  (The unamended claim — success for EVERY
well-formed tree — fails: see the counterexample.) -/
theorem claim3_normalize_success (detect : String → Except Unit String)
    (stripHtml : String → String) (raw : List (String × PyVal))
    (h1 : (dictGet raw "fetcher").isSome = true)
    (h2 : (dictGet raw "responsibleParty").isSome = true)
    (h3 : pyTruthy (rawGet raw "documentationUrl") = true ∨
          (dictGet raw "oshwaUid").isSome = true)
    (h4 : ¬ pyTruthy (rawGet raw "certificationDate") ∨
          ∃ s d, rawGet raw "certificationDate" = .pystr s ∧
            fromisoformat s = .ok d)
    (h5 : (dictGet raw "lastVisited").isSome = true)
    (h6 : (dictGet raw "projectName").isSome = true)
    (h7 : ∀ v, dictGet raw "projectVersion" = some v → pyTruthy v → isStrB v)
    (h8 : ∀ v, dictGet raw "hardwareLicense" = some v → pyTruthy v → isStrB v)
    (h9 : ∀ v, dictGet raw "projectDescription" = some v → pyTruthy v → isStrB v)
    (h10 : hashableB (rawGet raw "primaryType"))
    (h11 : ∀ s, rawGet raw "primaryType" = .pystr s →
           s ∈ unmappableCategories →
           (lenOkB (rawGet raw "additionalType") ∨
            rawGet raw "additionalType" = .pynone)) :
    ∃ p, normalize detect stripHtml raw = .ok p := by
  rcases hd1 : dictGet raw "fetcher" with _ | v1
  · rw [hd1] at h1; simp at h1
  rcases hd2 : dictGet raw "responsibleParty" with _ | v2
  · rw [hd2] at h2; simp at h2
  rcases hd5 : dictGet raw "lastVisited" with _ | v5
  · rw [hd5] at h5; simp at h5
  rcases hd6 : dictGet raw "projectName" with _ | v6
  · rw [hd6] at h6; simp at h6
  obtain ⟨vr, er⟩ := normalizeRepo_ok raw h3
  obtain ⟨vc, ec⟩ := normalizeCreatedAt_ok raw h4
  obtain ⟨vw, vx, ew, ex⟩ := version_ok raw h7
  obtain ⟨vl, el⟩ := normalizeLicense_ok raw h8
  obtain ⟨vf, ef⟩ := normalizeFunction_ok stripHtml raw h9
  obtain ⟨vk, ek⟩ := normalizeClassification_ok raw h10 h11
  apply exists_ok_of_isOk
  unfold normalize
  rw [show rawIndex raw "fetcher" = .ok v1 by unfold rawIndex; rw [hd1]]
  rw [show rawIndex raw "responsibleParty" = .ok v2 by unfold rawIndex; rw [hd2]]
  rw [er, ec]
  rw [show rawIndex raw "lastVisited" = .ok v5 by unfold rawIndex; rw [hd5]]
  rw [show rawIndex raw "projectName" = .ok v6 by unfold rawIndex; rw [hd6]]
  rw [ew, el, ef, ek]
  simp [ex, exceptIsOk]

/-- Witness for C3 at the full concrete record. -/
theorem claim3_witness :
    (dictGet recFull "fetcher").isSome = true ∧
    (∃ p, normalize detect0 strip0 recFull = .ok p) := by
  refine ⟨rfl, claim3_normalize_success detect0 strip0 recFull rfl rfl
    (Or.inr rfl) (Or.inr ⟨"2020-05-04T00:00-04:00",
      ⟨2020, 5, 4, 0, 0, 0, 0, some (-240)⟩, rfl, rfl⟩) rfl rfl ?_ ?_ ?_ rfl ?_⟩
  · intro v hv htr
    rw [show dictGet recFull "projectVersion" = some (.pystr "1.0") from rfl] at hv
    injection hv with hv
    rw [← hv]
    rfl
  · intro v hv htr
    rw [show dictGet recFull "hardwareLicense" = some (.pystr "CERN") from rfl] at hv
    injection hv with hv
    rw [← hv]
    rfl
  · intro v hv htr
    rw [show dictGet recFull "projectDescription" =
      some (.pystr "A tiny color OLED!") from rfl] at hv
    injection hv with hv
    rw [← hv]
    rfl
  · intro s hs hmem
    left
    rw [show rawGet recFull "additionalType" =
      .pylist [.pystr "Electronics"] from rfl]
    rfl

/-! ### Theorems for claim C4 (the part list is never populated) -/

/-- Every Project that `normalize` returns keeps the `Project()` default
empty part list: the `project.part = self._normalize_parts(files)` line is
commented out. -/
lemma normalize_ok_part_nil (detect : String → Except Unit String)
    (stripHtml : String → String) (raw : List (String × PyVal)) (p : Project)
    (h : normalize detect stripHtml raw = .ok p) : p.part = [] := by
  unfold normalize at h
  repeat' split at h
  all_goals try exact Except.noConfusion h
  injection h with h2
  rw [← h2]

/-- Claim C4, amended: the Project assembled by `normalize` does NOT carry
the Part Classifier's output: its structural part list is always the empty
`Project()` default, because the classifier invocation is commented out
and `_get_files`/`_normalize_parts` are never called from `normalize`. -/
theorem claim4_part_list_default (detect : String → Except Unit String)
    (stripHtml : String → String) (raw : List (String × PyVal)) :
    Except.map Project.part (normalize detect stripHtml raw) =
      Except.map (fun _ => ([] : List Part)) (normalize detect stripHtml raw) := by
  rcases hx : normalize detect stripHtml raw with e | p
  · rfl
  · simp [Except.map, normalize_ok_part_nil detect stripHtml raw p hx]

/-- Claim C4 counterexample: a record carrying one classifiable contribution
file (`A.stl`, an export-category CAD format).  Running the record's file
list through `_get_files` and `_normalize_parts` yields one Part, yet the
Project returned by `normalize` has an empty part list — so the claim
"the Project carries the Part Classifier's output" fails. -/
theorem claim4_counterexample :
    projPartList (normalize detect0 strip0 recOneFile) = some [] ∧
    Except.map (fun l => List.length l)
      (match getFiles strptime0 now0 recOneFile with
       | .ok fs => normalizeParts cadFormats0 pcbFormats0 imageFormats0 fs
       | .error e => .error e) = .ok 1 :=
  ⟨rfl, rfl⟩

/-! ### Theorems for claim C10 (deserializer error policy) -/

/-- Claim C10 counterexample: on input the TOML parser rejects, the TOML
deserializer propagates the parser's own `TomlDecodeError` unchanged —
`toml.loads` is not wrapped — so the failure is NOT the structured
`DeserializerError` the claim requires for unparseable input. -/
theorem claim10_counterexample :
    tomlDeserialize (fun _ => .error (.tomlDecode "Invalid key"))
        (fun es => normalize detect0 strip0 es) "=bad" none =
      .error (.tomlDecode "Invalid key") ∧
    isDeserializerErr
      (tomlDeserialize (fun _ => .error (.tomlDecode "Invalid key"))
        (fun es => normalize detect0 strip0 es) "=bad" none) = false :=
  ⟨rfl, rfl⟩

/-- Claim C10, amended: the JSON deserializer raises the structured
`DeserializerError` both when the input cannot be parsed and when the
parse result is not a key-value tree; the TOML deserializer raises it only
for a parse result that is not a key-value tree, while an unparseable
input propagates the TOML library's own exception unchanged. -/
theorem claim10_deserializers (jloads : String → Except String PyVal)
    (tloads : String → Except PyErr PyVal)
    (normFn : List (String × PyVal) → Except PyErr Project) (s : String)
    (enrich : Option (List (String × PyVal))) :
    (∀ m, jloads s = .error m →
       jsonDeserialize jloads normFn s enrich =
         .error (.deserializer ("failed to deserialize JSON: " ++ m))) ∧
    (∀ v, jloads s = .ok v → isMapping v = false →
       jsonDeserialize jloads normFn s enrich =
         .error (.deserializer "invalid format")) ∧
    (∀ v, tloads s = .ok v → isMapping v = false →
       tomlDeserialize tloads normFn s enrich =
         .error (.deserializer "invalid format")) ∧
    (∀ e, tloads s = .error e →
       tomlDeserialize tloads normFn s enrich = .error e) := by
  refine ⟨?_, ?_, ?_, ?_⟩
  · intro m hm
    unfold jsonDeserialize
    rw [hm]
  · intro v hv hmap
    unfold jsonDeserialize
    rw [hv]
    cases v <;> simp [isMapping] at hmap ⊢
  · intro v hv hmap
    unfold tomlDeserialize
    rw [hv]
    cases v <;> simp [isMapping] at hmap ⊢
  · intro e he
    unfold tomlDeserialize
    rw [he]

/-- Witness for C10: a failing JSON parse is wrapped into
`DeserializerError`. -/
theorem claim10_witness :
    (fun (_ : String) => (.error "Expecting value" : Except String PyVal)) "x" =
      .error "Expecting value" ∧
    jsonDeserialize (fun _ => .error "Expecting value")
        (fun es => normalize detect0 strip0 es) "x" none =
      .error (.deserializer "failed to deserialize JSON: Expecting value") :=
  ⟨rfl,
    (claim10_deserializers (fun _ => .error "Expecting value")
      (fun _ => .error (.tomlDecode "Invalid key"))
      (fun es => normalize detect0 strip0 es) "x" none).1
      "Expecting value" rfl⟩

end Krawl
